import Mathlib

/- Verification of the recycle-sorter edge controller, source file
src/edge/main.py. The development is a shallow embedding: each Lean
definition translates one Python function or a fragment of one; device,
camera and network IO are abstracted into explicit parameters, and the
exception flow of a call is represented by Option or Except values.

Definitions come first, translated from the source; all lemmas and
theorems follow. -/

namespace RecycleSorter

/-! ## Serial state-line parsing (SerialESP32Client reader loop)

The device sends text lines; the reader loop (main.py lines 195-221)
decodes, strips, and runs a regex search with the pattern of line 395,
which is an optional opening parenthesis, optional whitespace, a captured
binary digit, optional whitespace, one comma-or-whitespace separator,
optional whitespace, a captured binary digit, optional whitespace and an
optional closing parenthesis. On a match the cached pair becomes the two
captured digits compared with the digit one. -/

/-- Whitespace class of the regex, restricted to the ASCII alphabet:
space, tab, newline, carriage return, vertical tab and form feed. -/
def pySpace (c : Char) : Bool :=
  c = ' ' || c = '\t' || c = '\n' || c = '\r' || c = '\x0b' || c = '\x0c'

/-- Binary digit character class of the two capture groups. -/
def isBinDigit (c : Char) : Bool :=
  c = '0' || c = '1'

/-- All suffixes reachable by the greedy whitespace repetition of the
pattern, longest skip first: this is the backtracking order the Python
regex engine explores. -/
def wsSplits : List Char → List (List Char)
  | [] => [[]]
  | c :: rest => if pySpace c then wsSplits rest ++ [c :: rest] else [c :: rest]

/-- Match the second capture group at the current position; the first
captured digit d1 is threaded through. -/
def matchD2 (d1 : Char) : List Char → Option (Char × Char)
  | c :: _ => if isBinDigit c then some (d1, c) else none
  | [] => none

/-- Match one comma-or-whitespace separator, then optional whitespace, then
the second captured digit. -/
def matchSepD2 (d1 : Char) : List Char → Option (Char × Char)
  | c :: rest =>
      if c = ',' || pySpace c then (wsSplits rest).findSome? (matchD2 d1) else none
  | [] => none

/-- Match the first captured digit, then optional whitespace, then the
separator part. -/
def matchD1 : List Char → Option (Char × Char)
  | c :: rest =>
      if isBinDigit c then (wsSplits rest).findSome? (matchSepD2 c) else none
  | [] => none

/-- Backtracking match of the full pattern at one start position. The
greedy optional opening parenthesis first tries consuming, then not
consuming. The trailing optional-whitespace and optional closing
parenthesis of the pattern always match the empty string and can affect
neither success nor the captured digits, so they carry no representation. -/
def matchStateAt (cs : List Char) : Option (Char × Char) :=
  match cs with
  | c :: rest =>
      if c = '(' then
        ((wsSplits rest).findSome? matchD1).or ((wsSplits (c :: rest)).findSome? matchD1)
      else
        (wsSplits (c :: rest)).findSome? matchD1
  | [] => (wsSplits []).findSome? matchD1

/-- Left-to-right scan of the regex search: try each start position in
order, first match wins. -/
def stateSearch : List Char → Option (Char × Char)
  | [] => matchStateAt []
  | c :: rest => (matchStateAt (c :: rest)).or (stateSearch rest)

/-- One iteration of the reader loop body (lines 209-218) on a decoded and
stripped text line: an empty text is skipped; otherwise, when the search
finds a match the cached pair becomes the captures compared with the digit
one, and when it does not the cache is kept unchanged. -/
def readerStep (st : Bool × Bool) (cs : List Char) : Bool × Bool :=
  if cs = [] then st
  else
    match stateSearch cs with
    | some (a, b) => (a == '1', b == '1')
    | none => st

/-- Initial cache value set by the constructor (line 100). -/
def readerInitState : Bool × Bool := (false, false)

/-- Cache contents after the reader loop has processed a sequence of text
lines, as reported by get_latest_state. -/
def readerRun (lines : List (List Char)) : Bool × Bool :=
  lines.foldl readerStep readerInitState

/-- Lists made only of regex whitespace characters. -/
abbrev SpaceList (ws : List Char) : Prop := ∀ c ∈ ws, pySpace c = true

/-- The tolerant two-digit state-line grammar of the specification: two
binary digits d1 and d2 read left to right, separated by one comma or
whitespace character, with optional whitespace padding and optional
parentheses. This is exactly the full-match language of the state
pattern. -/
def StateGrammar (cs : List Char) (d1 d2 : Char) : Prop :=
  isBinDigit d1 = true ∧ isBinDigit d2 = true ∧
  ∃ pl w1 w2 sep w3 w4 pr,
    (pl = ([] : List Char) ∨ pl = ['(']) ∧ (pr = ([] : List Char) ∨ pr = [')']) ∧
    SpaceList w1 ∧ SpaceList w2 ∧ SpaceList w3 ∧ SpaceList w4 ∧
    (sep = ',' ∨ pySpace sep = true) ∧
    cs = pl ++ w1 ++ d1 :: (w2 ++ (sep :: (w3 ++ (d2 :: (w4 ++ pr)))))

/-! ## Dual-classifier validation (recognizeAndValidate, main.py lines 560-616)

Each classifier call either returns a category id (an unconstrained Python
int) or raises; the surrounding except blocks of the source turn a raise
into the value None. The embedding therefore takes the four call results as
Option Int parameters: rf1 and gm1 are the Roboflow and Gemini results on
the first attempt, rf2 and gm2 on the retry. The frame plumbing (get_frame,
image, frame2, retry_sleep) has no effect on the returned id and carries no
representation. The embedding is a total function, which reflects that the
source returns on every path and raises on none. -/

/-- Retry phase (lines 605-613): agreement wins, persistent mismatch prefers
the Gemini value, a single success wins, and a double failure falls back to
the garbage id 3. -/
def retryOutcome (rf2 gm2 : Option Int) : Int :=
  match rf2, gm2 with
  | some r2, some g2 => if r2 = g2 then r2 else g2
  | some r2, none => r2
  | none, some g2 => g2
  | none, none => 3

/-- Full policy of recognizeAndValidate: first-attempt agreement or a single
first-attempt success returns immediately; otherwise, with retries allowed,
the retry phase decides; with retries disabled the Gemini first value is
preferred, then the Roboflow first value, then garbage. -/
def recognizeAndValidate (rf1 gm1 rf2 gm2 : Option Int) (retry_count : Int) : Int :=
  match rf1, gm1 with
  | some r1, some g1 =>
      if r1 = g1 then r1
      else if retry_count > 0 then retryOutcome rf2 gm2
      else g1
  | some r1, none => r1
  | none, some g1 => g1
  | none, none =>
      if retry_count > 0 then retryOutcome rf2 gm2
      else 3

/-! ## Serial command sending (SerialESP32Client.send_command, lines 163-184) -/

/-- Payload string built at line 165: the decimal rendering of the command
value followed by a newline, before utf-8 encoding. -/
def send_command_payload (v : Int) : String := toString v ++ "\n"

/-- The three category ids of the serial command protocol: 1 can, 2 bottle,
3 garbage (mapping of main.py lines 55-59). -/
abbrev validCategory (v : Int) : Prop := v = 1 ∨ v = 2 ∨ v = 3

/-- Abstract serial connection: an open flag, the pending output buffer and
the payloads already flushed out onto the wire. -/
structure Conn where
  isOpen : Bool
  outBuf : List String
  wire : List String

/-- Model of reset_output_buffer: pending output is discarded. -/
def resetOutputBuffer (c : Conn) : Conn := { c with outBuf := [] }

/-- Model of write: the payload joins the pending output. -/
def connWrite (c : Conn) (payload : String) : Conn :=
  { c with outBuf := c.outBuf ++ [payload] }

/-- Model of flush: pending output moves onto the wire. -/
def connFlush (c : Conn) : Conn :=
  { c with wire := c.wire ++ c.outBuf, outBuf := [] }

/-- Model of close: the connection stops being open. -/
def connClose (c : Conn) : Conn := { c with isOpen := false }

/-- Shallow embedding of send_command on an already open connection. The
boolean writeOk is the outcome of the underlying serial write call: when
true, the source discards pending output, writes the payload, flushes and
returns True; when false the write raises, the except block closes the
connection object and clears the stored handle (so the next send or read
access reconnects), and a RuntimeError is raised to the caller. The result
triple is (stored handle after the call, final connection object, outcome). -/
def send_command (c : Conn) (v : Int) (writeOk : Bool) :
    Option Conn × Conn × Except String Bool :=
  let payload := send_command_payload v
  if writeOk then
    let c2 := connFlush (connWrite (resetOutputBuffer c) payload)
    (some c2, c2, Except.ok true)
  else
    (none, connClose (resetOutputBuffer c),
      Except.error "Failed to write to ESP32 over serial")

/-- Embedding of esp32Command (lines 269-279): the body runs inside one big
try block, so any failure while obtaining the client or sending the command
becomes the return value 0 and a success becomes 1; no exception escapes. -/
def esp32Command (outcome : Except String Bool) : Int :=
  match outcome with
  | Except.ok _ => 1
  | Except.error _ => 0

/-! ## Label mapping (_label_to_category_id, lines 853-863) and the
Roboflow result range -/

/-- Check that pat is a prefix of hay. -/
def startsWith : List Char → List Char → Bool
  | _, [] => true
  | [], _ :: _ => false
  | h :: hs, p :: ps => (h = p) && startsWith hs ps

/-- Check that pat occurs as a contiguous substring of hay; this is the
Python membership test of a string in a string. -/
def hasSub : List Char → List Char → Bool
  | [], pat => startsWith [] pat
  | c :: t, pat => startsWith (c :: t) pat || hasSub t pat

/-- Python strip: remove whitespace from both ends (ASCII alphabet, the same
class as the regex whitespace). -/
def pyStrip (cs : List Char) : List Char :=
  ((cs.dropWhile pySpace).reverse.dropWhile pySpace).reverse

/-- Python lower restricted to the ASCII letters. -/
def lowerChars (cs : List Char) : List Char := cs.map Char.toLower

/-- Normalization applied at line 857: strip surrounding whitespace, then
lowercase. -/
def normalizeLabel (l : String) : List Char := lowerChars (pyStrip l.data)

/-- Embedding of _label_to_category_id: a falsy label (absent or empty)
gives 3; otherwise the normalized label is matched by substring, the can
keywords first, then the bottle keywords, and everything else is 3. -/
def label_to_category_id (label : Option String) : Int :=
  match label with
  | none => 3
  | some l =>
      if l = "" then 3
      else
        let norm := normalizeLabel l
        if hasSub norm ("can".data) || hasSub norm ("cans".data) then 1
        else if hasSub norm ("bottle".data) || hasSub norm ("bottles".data) then 2
        else 3

/-! ## Port auto-detection (SerialESP32Client._auto_detect_port, lines 107-126) -/

/-- Fields of one enumerated serial port used during resolution; description
and manufacturer may be absent, as in pyserial. -/
structure PortInfo where
  device : String
  description : Option String
  manufacturer : Option String

/-- Keyword hints scanned against the description and the manufacturer
(the _PREFERRED_KEYWORDS tuple, lines 68-86). -/
def preferredKeywords : List String :=
  [ "arduino", "esp", "cp210", "ch340", "ftdi", "ft232", "wch", "silicon labs",
    "usbserial", "usb modem", "usbmodem", "serial", "ttyacm", "ttyusb" ]

/-- Keyword hints scanned against the device name (the inner tuple at
line 119). -/
def deviceKeywords : List String :=
  [ "usbmodem", "usbserial", "ttyacm", "ttyusb", "cu.usb", "tty.usb" ]

/-- The _matches predicate of _auto_detect_port: some keyword occurs in the
lowercased description or manufacturer (absent fields read as empty), or
some device keyword occurs in the lowercased device name. -/
def portMatches (p : PortInfo) : Bool :=
  let desc := lowerChars (p.description.getD "").data
  let manu := lowerChars (p.manufacturer.getD "").data
  let dev := lowerChars p.device.data
  preferredKeywords.any (fun kw => hasSub desc kw.data) ||
  preferredKeywords.any (fun kw => hasSub manu kw.data) ||
  deviceKeywords.any (fun kw => hasSub dev kw.data)

/-- Port resolution: an empty enumeration raises; otherwise the matching
ports are kept in order and the first one is selected, falling back to the
first enumerated port when none matches (prioritized[0] if prioritized else
ports[0], line 124, rendered with headD). -/
def auto_detect_port (ports : List PortInfo) : Except String String :=
  match ports with
  | [] => Except.error "No serial ports detected while auto-discovering ESP32."
  | p0 :: rest =>
      Except.ok (((p0 :: rest).filter portMatches).headD p0).device

/-! ## Character-class facts used throughout the parsing proofs -/

lemma pySpace_cases {c : Char} (h : pySpace c = true) :
    c = ' ' ∨ c = '\t' ∨ c = '\n' ∨ c = '\r' ∨ c = '\x0b' ∨ c = '\x0c' := by
  have h2 := h
  simp only [pySpace, Bool.or_eq_true, decide_eq_true_eq] at h2
  tauto

lemma isBinDigit_cases {c : Char} (h : isBinDigit c = true) :
    c = '0' ∨ c = '1' := by
  simpa [isBinDigit] using h

lemma digit_not_space {c : Char} (h : isBinDigit c = true) : pySpace c = false := by
  rcases isBinDigit_cases h with rfl | rfl <;> decide

lemma space_not_digit {c : Char} (h : pySpace c = true) : isBinDigit c = false := by
  rcases pySpace_cases h with rfl | rfl | rfl | rfl | rfl | rfl <;> decide

lemma space_ne_lparen {c : Char} (h : pySpace c = true) : c ≠ '(' := by
  rcases pySpace_cases h with rfl | rfl | rfl | rfl | rfl | rfl <;> decide

lemma digit_ne_lparen {c : Char} (h : isBinDigit c = true) : c ≠ '(' := by
  rcases isBinDigit_cases h with rfl | rfl <;> decide

/-! Backtracking lemmas: how the greedy whitespace repetition interacts with
a continuation. -/

/-- When the continuation fails on every whitespace-headed suffix, skipping a
whitespace run reduces the search to the continuation applied after the
run. -/
lemma findSome?_wsSplits {β : Type} (f : List Char → Option β) (ws rest : List Char)
    (hws : SpaceList ws)
    (hf : ∀ c r, pySpace c = true → f (c :: r) = none)
    (hrest : ∀ c r, rest = c :: r → pySpace c = false) :
    (wsSplits (ws ++ rest)).findSome? f = f rest := by
  induction ws with
  | nil =>
      cases rest with
      | nil =>
          cases hfe : f [] <;> simp [wsSplits, List.findSome?_cons, hfe]
      | cons c r =>
          have hc : pySpace c = false := hrest c r rfl
          cases hfe : f (c :: r) <;> simp [wsSplits, hc, List.findSome?_cons, hfe]
  | cons w ws ih =>
      have hw : pySpace w = true := hws w (by simp)
      have hws' : SpaceList ws := fun c hc => hws c (by simp [hc])
      have step : wsSplits ((w :: ws) ++ rest) =
          wsSplits (ws ++ rest) ++ [w :: (ws ++ rest)] := by
        simp [wsSplits, hw]
      rw [step, List.findSome?_append, ih hws']
      have hlast : ([w :: (ws ++ rest)] : List (List Char)).findSome? f = none := by
        simp [List.findSome?_cons, hf w _ hw]
      rw [hlast, Option.or_none]

/-- A whitespace run followed by a non-whitespace head puts that suffix first
in the greedy backtracking order. -/
lemma wsSplits_head {x : Char} (ws R : List Char) (hws : SpaceList ws)
    (hx : pySpace x = false) :
    ∃ t, wsSplits (ws ++ x :: R) = (x :: R) :: t := by
  induction ws with
  | nil => exact ⟨[], by simp [wsSplits, hx]⟩
  | cons w ws ih =>
      obtain ⟨t, ht⟩ := ih (fun c hc => hws c (by simp [hc]))
      have hw : pySpace w = true := hws w (by simp)
      exact ⟨t ++ [w :: (ws ++ x :: R)], by simp [wsSplits, hw, ht]⟩

/-- Separator-and-second-digit matching succeeds on a comma separator with
whitespace padding on both sides. -/
lemma matchSepD2_comma (d1 d2 : Char) (w2 w3 R : List Char)
    (hw2 : SpaceList w2) (hw3 : SpaceList w3) (hd2 : isBinDigit d2 = true) :
    (wsSplits (w2 ++ ',' :: (w3 ++ d2 :: R))).findSome? (matchSepD2 d1) =
      some (d1, d2) := by
  obtain ⟨t, ht⟩ := wsSplits_head (x := ',') w2 (w3 ++ d2 :: R) hw2 (by decide)
  have hhead : matchSepD2 d1 (',' :: (w3 ++ d2 :: R)) = some (d1, d2) := by
    have hinner : (wsSplits (w3 ++ d2 :: R)).findSome? (matchD2 d1) =
        matchD2 d1 (d2 :: R) := by
      refine findSome?_wsSplits (matchD2 d1) w3 (d2 :: R) hw3 ?_ ?_
      · intro c r hc
        simp [matchD2, space_not_digit hc]
      · intro c r hcr
        cases hcr
        exact digit_not_space hd2
    simp [matchSepD2, hinner, matchD2, hd2]
  rw [ht]
  simp [List.findSome?_cons, hhead]

/-- Separator-and-second-digit matching succeeds on a nonempty whitespace run
used as the separator, reaching the second digit. -/
lemma matchSepD2_space (d1 d2 : Char) (W R : List Char)
    (hW : SpaceList W) (hne : W ≠ []) (hd2 : isBinDigit d2 = true) :
    (wsSplits (W ++ d2 :: R)).findSome? (matchSepD2 d1) = some (d1, d2) := by
  induction W with
  | nil => exact absurd rfl hne
  | cons w W ih =>
      have hw : pySpace w = true := hW w (by simp)
      have hW' : SpaceList W := fun c hc => hW c (by simp [hc])
      have hd2s : pySpace d2 = false := digit_not_space hd2
      cases W with
      | nil =>
          have hsplits : wsSplits ([w] ++ d2 :: R) = [d2 :: R, w :: d2 :: R] := by
            simp [wsSplits, hw, hd2s]
          have hfail : matchSepD2 d1 (d2 :: R) = none := by
            have h1 : (d2 = ',') = False := by
              rcases isBinDigit_cases hd2 with rfl | rfl <;> simp
            simp [matchSepD2, h1, hd2s]
          have hok : matchSepD2 d1 (w :: d2 :: R) = some (d1, d2) := by
            have hinner : (wsSplits (d2 :: R)).findSome? (matchD2 d1) =
                matchD2 d1 (d2 :: R) := by
              refine findSome?_wsSplits (matchD2 d1) [] (d2 :: R)
                (fun c hc => absurd hc (List.not_mem_nil c)) ?_ ?_
              · intro c r hc
                simp [matchD2, space_not_digit hc]
              · intro c r hcr
                cases hcr
                exact hd2s
            simp [matchSepD2, hw, hinner, matchD2, hd2]
          rw [hsplits]
          simp [List.findSome?_cons, hfail, hok]
      | cons w2 W' =>
          have step : wsSplits ((w :: w2 :: W') ++ d2 :: R) =
              wsSplits ((w2 :: W') ++ d2 :: R) ++ [w :: ((w2 :: W') ++ d2 :: R)] := by
            simp [wsSplits, hw]
          rw [step, List.findSome?_append, ih hW' (by simp)]
          rfl

/-- First-digit matching succeeds on the grammar tail that follows the first
digit. -/
lemma matchD1_grammar (d1 d2 sep : Char) (w2 w3 R : List Char)
    (hd1 : isBinDigit d1 = true) (hd2 : isBinDigit d2 = true)
    (hsep : sep = ',' ∨ pySpace sep = true)
    (hw2 : SpaceList w2) (hw3 : SpaceList w3) :
    matchD1 (d1 :: (w2 ++ (sep :: (w3 ++ d2 :: R)))) = some (d1, d2) := by
  have hfind : (wsSplits (w2 ++ (sep :: (w3 ++ d2 :: R)))).findSome? (matchSepD2 d1) =
      some (d1, d2) := by
    rcases hsep with rfl | hsp
    · exact matchSepD2_comma d1 d2 w2 w3 R hw2 hw3 hd2
    · have hshape : w2 ++ (sep :: (w3 ++ d2 :: R)) =
          (w2 ++ sep :: w3) ++ d2 :: R := by simp
      rw [hshape]
      refine matchSepD2_space d1 d2 (w2 ++ sep :: w3) R ?_ (by simp) hd2
      intro c hc
      rcases List.mem_append.mp hc with h | h
      · exact hw2 c h
      · rcases List.mem_cons.mp h with rfl | h
        · exact hsp
        · exact hw3 c h
  simp [matchD1, hd1, hfind]

/-- The pattern matches at the very start of any line of the grammar, and the
captures are the two digits of the line. -/
lemma matchStateAt_grammar (cs : List Char) (d1 d2 : Char)
    (h : StateGrammar cs d1 d2) :
    matchStateAt cs = some (d1, d2) := by
  obtain ⟨hd1, hd2, pl, w1, w2, sep, w3, w4, pr, hpl, hpr, hw1, hw2, hw3, hw4, hsep, hcs⟩ := h
  have hmd1 : matchD1 (d1 :: (w2 ++ (sep :: (w3 ++ d2 :: (w4 ++ pr))))) =
      some (d1, d2) :=
    matchD1_grammar d1 d2 sep w2 w3 (w4 ++ pr) hd1 hd2 hsep hw2 hw3
  have hffw1 : (wsSplits (w1 ++ d1 :: (w2 ++ (sep :: (w3 ++ d2 :: (w4 ++ pr)))))).findSome?
      matchD1 = some (d1, d2) := by
    rw [findSome?_wsSplits matchD1 w1 _ hw1 ?hf ?hr]
    · exact hmd1
    case hf =>
      intro c r hc
      simp [matchD1, space_not_digit hc]
    case hr =>
      intro c r hcr
      cases hcr
      exact digit_not_space hd1
  rcases hpl with rfl | rfl
  · simp only [List.nil_append] at hcs
    cases hw1e : w1 with
    | nil =>
        subst hw1e
        simp only [List.nil_append] at hcs
        subst hcs
        have hne : (d1 = '(') = False := by
          simp [digit_ne_lparen hd1]
        simp only [matchStateAt, hne, if_false]
        simpa using hffw1
    | cons c w1t =>
        have hc : pySpace c = true := by
          rw [hw1e] at hw1
          exact hw1 c (by simp)
        subst hw1e
        simp only [List.cons_append] at hcs
        subst hcs
        have hne : (c = '(') = False := by
          simp [space_ne_lparen hc]
        simp only [matchStateAt, hne, if_false]
        have : (c :: (w1t ++ d1 :: (w2 ++ (sep :: (w3 ++ d2 :: (w4 ++ pr)))))) =
            ((c :: w1t) ++ d1 :: (w2 ++ (sep :: (w3 ++ d2 :: (w4 ++ pr))))) := by simp
        rw [this]
        exact hffw1
  · simp only [List.cons_append, List.nil_append, List.singleton_append] at hcs
    subst hcs
    simp only [matchStateAt, eq_self_iff_true, if_true, List.nil_append]
    rw [hffw1]
    rfl

/-- The search finds the grammar line at position zero. -/
lemma stateSearch_grammar (cs : List Char) (d1 d2 : Char)
    (h : StateGrammar cs d1 d2) :
    stateSearch cs = some (d1, d2) := by
  have hm := matchStateAt_grammar cs d1 d2 h
  cases cs with
  | nil =>
      obtain ⟨_, _, pl, w1, w2, sep, w3, w4, pr, hpl, hpr, _, _, _, _, _, hcs⟩ := h
      exact absurd hcs.symm (by simp)
  | cons c rest =>
      rw [stateSearch, hm]
      rfl

/-! ## Claim C2 -/

/-- Claim C2: every line of the tolerant two-digit grammar is parsed by the
reader loop, and the cached pair becomes exactly the two literal digits read
left to right, the digit one mapping to true and the digit zero to false,
whatever the prior cache value was. -/
theorem grammar_line_sets_state_to_digits (cs : List Char) (d1 d2 : Char)
    (st : Bool × Bool) (h : StateGrammar cs d1 d2) :
    readerStep st cs = (d1 == '1', d2 == '1') := by
  have hne : cs ≠ [] := by
    obtain ⟨_, _, pl, w1, w2, sep, w3, w4, pr, _, _, _, _, _, _, _, hcs⟩ := h
    rw [hcs]
    simp
  rw [readerStep, if_neg hne, stateSearch_grammar cs d1 d2 h]

/-- Witness for C2 at the concrete line (0, 1) and prior cache (true, true):
the parse overwrites the cache with (false, true). -/
theorem grammar_line_sets_state_to_digits_witness :
    readerStep (true, true) ("(0, 1)".data) = (false, true) := by
  have h : StateGrammar ("(0, 1)".data) '0' '1' := by
    refine ⟨by decide, by decide, ['('], [], [], ',', [' '], [], [')'],
      Or.inr rfl, Or.inr rfl, by decide, by decide, by decide, by decide,
      Or.inl rfl, by decide⟩
  have := grammar_line_sets_state_to_digits ("(0, 1)".data) '0' '1' (true, true) h
  simpa using this

/-! ## Claim C3 -/

/-- Claim C3: a text line on which the state pattern search finds no match
leaves the cached pair unchanged, whatever its prior value; the word garbage
and the empty line are such lines; and after any history made only of such
lines the cache still holds the constructor default (false, false). -/
theorem unmatched_line_preserves_state :
    (∀ (st : Bool × Bool) (cs : List Char),
        stateSearch cs = none → readerStep st cs = st) ∧
    stateSearch ("garbage".data) = none ∧
    stateSearch ("".data) = none ∧
    (∀ lines : List (List Char),
        (∀ cs ∈ lines, stateSearch cs = none) → readerRun lines = (false, false)) := by
  have hstep : ∀ (st : Bool × Bool) (cs : List Char),
      stateSearch cs = none → readerStep st cs = st := by
    intro st cs h
    by_cases hcs : cs = []
    · rw [readerStep, if_pos hcs]
    · rw [readerStep, if_neg hcs, h]
  refine ⟨hstep, by decide, by decide, ?_⟩
  have hfold : ∀ (lines : List (List Char)) (st : Bool × Bool),
      (∀ cs ∈ lines, stateSearch cs = none) → lines.foldl readerStep st = st := by
    intro lines
    induction lines with
    | nil => intro st _; rfl
    | cons l ls ih =>
        intro st hall
        rw [List.foldl_cons, hstep st l (hall l (by simp)),
          ih st (fun cs hc => hall cs (by simp [hc]))]
  intro lines hall
  exact hfold lines readerInitState hall

/-- Witness for C3: a non-matching line keeps a concrete prior cache, and a
run over two non-matching lines reports the default state. -/
theorem unmatched_line_preserves_state_witness :
    readerStep (true, false) ("garbage".data) = (true, false) ∧
    readerRun [("garbage".data), ("".data)] = (false, false) := by
  constructor
  · exact unmatched_line_preserves_state.1 (true, false) ("garbage".data) (by decide)
  · exact unmatched_line_preserves_state.2.2.2 [("garbage".data), ("".data)] (by decide)

/-! ## Claim C4 -/

/-- Claim C4: when both classifiers succeed but disagree on the first attempt
and both succeed but disagree again on the retry, the result is the Gemini
retry value (the explicit tie-break favoring classifier B), under the cycle
loop invocation retry_count equal to one. -/
theorem persistent_mismatch_returns_gemini_retry (r1 g1 r2 g2 : Int)
    (h1 : r1 ≠ g1) (h2 : r2 ≠ g2) :
    recognizeAndValidate (some r1) (some g1) (some r2) (some g2) 1 = g2 := by
  simp [recognizeAndValidate, retryOutcome, h1, h2]

/-- Witness for C4 at a concrete persistent disagreement. -/
theorem persistent_mismatch_returns_gemini_retry_witness :
    recognizeAndValidate (some 1) (some 2) (some 1) (some 2) 1 = 2 :=
  persistent_mismatch_returns_gemini_retry 1 2 1 2 (by decide) (by decide)

/-! ## Claim C5 -/

/-- Claim C5: when both classifiers fail on the first attempt and both fail
again on the retry, the result is the fail-safe default garbage id 3, for
every retry count; the embedding being a total function mirrors that the
source returns normally here and no exception reaches the caller. -/
theorem double_failure_returns_garbage :
    ∀ retry_count : Int, recognizeAndValidate none none none none retry_count = 3 := by
  intro rc
  simp [recognizeAndValidate, retryOutcome]

/-! ## Claim C10 -/

/-- Claim C10: with retries disabled and both classifiers succeeding but
disagreeing on the first attempt, the result is the Gemini first-attempt
value, whatever the unused retry parameters hold. -/
theorem no_retry_mismatch_returns_gemini_first (r1 g1 : Int) (rf2 gm2 : Option Int)
    (h : r1 ≠ g1) :
    recognizeAndValidate (some r1) (some g1) rf2 gm2 0 = g1 := by
  simp [recognizeAndValidate, h]

/-- Witness for C10 at a concrete first-attempt disagreement. -/
theorem no_retry_mismatch_returns_gemini_first_witness :
    recognizeAndValidate (some 1) (some 2) none none 0 = 2 :=
  no_retry_mismatch_returns_gemini_first 1 2 none none (by decide)

/-! ## Claim C1 -/

/-- Range of the retry phase when every successful input is in range. -/
lemma retryOutcome_range (rf2 gm2 : Option Int)
    (h3 : ∀ v, rf2 = some v → validCategory v)
    (h4 : ∀ v, gm2 = some v → validCategory v) :
    validCategory (retryOutcome rf2 gm2) := by
  rcases rf2 with _ | r2 <;> rcases gm2 with _ | g2
  · exact Or.inr (Or.inr rfl)
  · exact h4 g2 rfl
  · exact h3 r2 rfl
  · by_cases h : r2 = g2
    · simpa [retryOutcome, h] using h3 r2 rfl
    · simpa [retryOutcome, h] using h4 g2 rfl

/-- Range of the whole validation policy when every successful classifier
result is in range. -/
lemma recognizeAndValidate_range (rf1 gm1 rf2 gm2 : Option Int) (rc : Int)
    (h1 : ∀ v, rf1 = some v → validCategory v)
    (h2 : ∀ v, gm1 = some v → validCategory v)
    (h3 : ∀ v, rf2 = some v → validCategory v)
    (h4 : ∀ v, gm2 = some v → validCategory v) :
    validCategory (recognizeAndValidate rf1 gm1 rf2 gm2 rc) := by
  rcases rf1 with _ | r1 <;> rcases gm1 with _ | g1
  · by_cases h : rc > 0
    · simpa [recognizeAndValidate, h] using retryOutcome_range rf2 gm2 h3 h4
    · have h3v : validCategory 3 := Or.inr (Or.inr rfl)
      simpa [recognizeAndValidate, h] using h3v
  · exact h2 g1 rfl
  · exact h1 r1 rfl
  · by_cases he : r1 = g1
    · simpa [recognizeAndValidate, he] using h1 r1 rfl
    · by_cases h : rc > 0
      · simpa [recognizeAndValidate, he, h] using retryOutcome_range rf2 gm2 h3 h4
      · simpa [recognizeAndValidate, he, h] using h2 g1 rfl

/-- Payload shape for each in-range command value. -/
lemma payload_of_validCategory (v : Int) (h : validCategory v) :
    send_command_payload v = "1\n" ∨ send_command_payload v = "2\n" ∨
      send_command_payload v = "3\n" := by
  rcases h with rfl | rfl | rfl
  · exact Or.inl (by decide)
  · exact Or.inr (Or.inl (by decide))
  · exact Or.inr (Or.inr (by decide))

/-- Counterexample to claim C1 as stated: the Gemini classifier outcome is an
unconstrained integer (the response schema only requires an integer), so a
run in which Roboflow fails and Gemini answers the id 7 makes the cycle loop
pass 7 to send_command, and the serial line written is 7 followed by a
newline, which is none of the three protocol commands. -/
theorem command_value_escapes_protocol_range :
    recognizeAndValidate none (some 7) none none 1 = 7 ∧
    ¬ validCategory (recognizeAndValidate none (some 7) none none 1) ∧
    send_command_payload (recognizeAndValidate none (some 7) none none 1) = "7\n" ∧
    send_command_payload (recognizeAndValidate none (some 7) none none 1) ≠ "1\n" ∧
    send_command_payload (recognizeAndValidate none (some 7) none none 1) ≠ "2\n" ∧
    send_command_payload (recognizeAndValidate none (some 7) none none 1) ≠ "3\n" := by
  refine ⟨rfl, ?_, ?_, ?_, ?_, ?_⟩ <;> decide

/-- Claim C1 amended: whenever every successful classifier result lies in the
protocol range (which always holds on the Roboflow side, whose returned ids
come from label_to_category_id or the literal 3, see
label_to_category_id_range, and holds on the Gemini side whenever its reply
respects the instructed taxonomy), the category id handed by the cycle loop
to send_command lies in 1, 2, 3 and the line written is that single decimal
digit followed by a newline. -/
theorem command_value_in_range_amended (rf1 gm1 rf2 gm2 : Option Int) (rc : Int)
    (h1 : ∀ v, rf1 = some v → validCategory v)
    (h2 : ∀ v, gm1 = some v → validCategory v)
    (h3 : ∀ v, rf2 = some v → validCategory v)
    (h4 : ∀ v, gm2 = some v → validCategory v) :
    validCategory (recognizeAndValidate rf1 gm1 rf2 gm2 rc) ∧
    (send_command_payload (recognizeAndValidate rf1 gm1 rf2 gm2 rc) = "1\n" ∨
     send_command_payload (recognizeAndValidate rf1 gm1 rf2 gm2 rc) = "2\n" ∨
     send_command_payload (recognizeAndValidate rf1 gm1 rf2 gm2 rc) = "3\n") := by
  have hv := recognizeAndValidate_range rf1 gm1 rf2 gm2 rc h1 h2 h3 h4
  exact ⟨hv, payload_of_validCategory _ hv⟩

/-- Witness for the amended C1 on a concrete agreeing run. -/
theorem command_value_in_range_amended_witness :
    validCategory (recognizeAndValidate (some 2) (some 2) none none 1) ∧
    (send_command_payload (recognizeAndValidate (some 2) (some 2) none none 1) = "1\n" ∨
     send_command_payload (recognizeAndValidate (some 2) (some 2) none none 1) = "2\n" ∨
     send_command_payload (recognizeAndValidate (some 2) (some 2) none none 1) = "3\n") := by
  refine command_value_in_range_amended (some 2) (some 2) none none 1 ?_ ?_ ?_ ?_ <;>
    intro v hv <;> first
      | (injection hv with hv2; subst hv2; exact Or.inr (Or.inl rfl))
      | cases hv

/-! ## Claim C7 -/

/-- Claim C7: a failing serial write inside send_command closes the
connection object, clears the stored handle (so the next send or read access
reconnects afresh) and propagates the write error to the caller; a
successful call discards the pending output, writes exactly the payload of
the value, leaves nothing pending after the flush and returns True. -/
theorem send_command_failure_and_success (c : Conn) (v : Int) :
    ((send_command c v false).1 = none ∧
     (send_command c v false).2.1.isOpen = false ∧
     (send_command c v false).2.2 = Except.error "Failed to write to ESP32 over serial") ∧
    ((send_command c v true).1 = some (send_command c v true).2.1 ∧
     (send_command c v true).2.1.wire = c.wire ++ [send_command_payload v] ∧
     (send_command c v true).2.1.outBuf = [] ∧
     (send_command c v true).2.1.isOpen = c.isOpen ∧
     (send_command c v true).2.2 = Except.ok true) := by
  refine ⟨⟨rfl, rfl, rfl⟩, ⟨rfl, ?_, rfl, rfl, rfl⟩⟩
  simp [send_command, connFlush, connWrite, resetOutputBuffer]

/-! ## Claim C8 -/

/-- Claim C8: esp32Command runs its body inside one try block, so every
failure while obtaining the serial client or sending the command yields the
return value 0, a success yields 1, and in particular the error raised by a
failing send_command is absorbed rather than propagated to the cycle loop. -/
theorem esp32Command_never_raises :
    (∀ msg : String, esp32Command (Except.error msg) = 0) ∧
    (∀ b : Bool, esp32Command (Except.ok b) = 1) ∧
    (∀ (c : Conn) (v : Int),
        esp32Command (send_command c v false).2.2 = 0 ∧
        esp32Command (send_command c v true).2.2 = 1) :=
  ⟨fun _ => rfl, fun _ => rfl, fun _ _ => ⟨rfl, rfl⟩⟩

/-! ## Claim C9 -/

/-- A prefix of a longer pattern is detected whenever the longer pattern
is. -/
lemma startsWith_append (hay p q : List Char)
    (h : startsWith hay (p ++ q) = true) : startsWith hay p = true := by
  induction p generalizing hay with
  | nil =>
      cases hay <;> rfl
  | cons x ps ih =>
      cases hay with
      | nil => simp [startsWith] at h
      | cons hh hs =>
          simp only [List.cons_append, startsWith, Bool.and_eq_true] at h ⊢
          exact ⟨h.1, ih hs h.2⟩

/-- A substring occurrence of a longer pattern yields one of its prefix. -/
lemma hasSub_append (hay p q : List Char)
    (h : hasSub hay (p ++ q) = true) : hasSub hay p = true := by
  induction hay with
  | nil =>
      cases p with
      | nil => rfl
      | cons x ps => simp [hasSub, startsWith] at h
  | cons c t ih =>
      simp only [hasSub, Bool.or_eq_true] at h ⊢
      rcases h with h | h
      · exact Or.inl (startsWith_append _ p q h)
      · exact Or.inr (ih h)

/-- Every value label_to_category_id returns lies in the protocol range;
together with the literal fallbacks to 3 in recognizeImage this bounds every
Roboflow classifier outcome. -/
lemma label_to_category_id_range (label : Option String) :
    validCategory (label_to_category_id label) := by
  rcases label with _ | l
  · exact Or.inr (Or.inr rfl)
  · simp only [label_to_category_id]
    split_ifs <;> simp [validCategory]

/-- Containment of the plural can keyword implies containment of the
singular one. -/
lemma hasSub_cans {n : List Char} (h : hasSub n ("cans".data) = true) :
    hasSub n ("can".data) = true := by
  have hsplit : ("cans".data : List Char) = "can".data ++ ['s'] := by decide
  have h2 : hasSub n ("can".data ++ ['s']) = true := by
    rw [← hsplit]; exact h
  exact hasSub_append n ("can".data) ['s'] h2

/-- Containment of the plural bottle keyword implies containment of the
singular one. -/
lemma hasSub_bottles {n : List Char} (h : hasSub n ("bottles".data) = true) :
    hasSub n ("bottle".data) = true := by
  have hsplit : ("bottles".data : List Char) = "bottle".data ++ ['s'] := by decide
  have h2 : hasSub n ("bottle".data ++ ['s']) = true := by
    rw [← hsplit]; exact h
  exact hasSub_append n ("bottle".data) ['s'] h2

/-- Claim C9: the label mapping normalizes the free-text label and matches by
substring, the can keyword taking precedence, then the bottle keyword, and
everything else falling to garbage; an absent or empty label also falls to
garbage. -/
theorem label_substring_mapping (l : String) :
    (hasSub (normalizeLabel l) ("can".data) = true →
        label_to_category_id (some l) = 1) ∧
    (hasSub (normalizeLabel l) ("can".data) = false →
     hasSub (normalizeLabel l) ("bottle".data) = true →
        label_to_category_id (some l) = 2) ∧
    (hasSub (normalizeLabel l) ("can".data) = false →
     hasSub (normalizeLabel l) ("bottle".data) = false →
        label_to_category_id (some l) = 3) ∧
    label_to_category_id none = 3 ∧
    label_to_category_id (some "") = 3 := by
  refine ⟨?_, ?_, ?_, rfl, by decide⟩
  · intro h
    by_cases hl : l = ""
    · subst hl
      exact absurd h (by decide)
    · simp [label_to_category_id, hl, h]
  · intro hc hb
    by_cases hl : l = ""
    · subst hl
      exact absurd hb (by decide)
    · have hcans : hasSub (normalizeLabel l) ("cans".data) = false := by
        cases hx : hasSub (normalizeLabel l) ("cans".data) with
        | false => rfl
        | true => exact absurd (hasSub_cans hx) (by simp [hc])
      simp [label_to_category_id, hl, hc, hcans, hb]
  · intro hc hb
    by_cases hl : l = ""
    · subst hl
      rfl
    · have hcans : hasSub (normalizeLabel l) ("cans".data) = false := by
        cases hx : hasSub (normalizeLabel l) ("cans".data) with
        | false => rfl
        | true => exact absurd (hasSub_cans hx) (by simp [hc])
      have hbottles : hasSub (normalizeLabel l) ("bottles".data) = false := by
        cases hx : hasSub (normalizeLabel l) ("bottles".data) with
        | false => rfl
        | true => exact absurd (hasSub_bottles hx) (by simp [hb])
      simp [label_to_category_id, hl, hc, hcans, hb, hbottles]

/-- Witness for C9 on a concrete bottle label. -/
theorem label_substring_mapping_witness :
    label_to_category_id (some "Water Bottle") = 2 :=
  (label_substring_mapping "Water Bottle").2.1 (by decide) (by decide)

/-! ## Claim C6 -/

/-- Claim C6: without an explicit override, port resolution selects the first
keyword-matching port when one exists, falls back to the first enumerated
port when none matches, and fails with the no-port error on an empty
enumeration. -/
theorem port_resolution_policy :
    (∀ (pre : List PortInfo) (p : PortInfo) (post : List PortInfo),
        (∀ q ∈ pre, portMatches q = false) → portMatches p = true →
        auto_detect_port (pre ++ p :: post) = Except.ok p.device) ∧
    (∀ (p0 : PortInfo) (rest : List PortInfo),
        (∀ q ∈ p0 :: rest, portMatches q = false) →
        auto_detect_port (p0 :: rest) = Except.ok p0.device) ∧
    auto_detect_port [] =
      Except.error "No serial ports detected while auto-discovering ESP32." := by
  refine ⟨?_, ?_, rfl⟩
  · intro pre p post hpre hp
    have hnil : pre.filter portMatches = [] :=
      List.filter_eq_nil_iff.mpr (fun a ha => by simp [hpre a ha])
    have hfil : (pre ++ p :: post).filter portMatches = p :: post.filter portMatches := by
      rw [List.filter_append, hnil, List.nil_append, List.filter_cons_of_pos hp]
    cases pre with
    | nil =>
        simp only [List.nil_append] at hfil ⊢
        simp [auto_detect_port, hfil]
    | cons q pre' =>
        simp only [List.cons_append] at hfil ⊢
        simp [auto_detect_port, hfil]
  · intro p0 rest hall
    have hnil : (p0 :: rest).filter portMatches = [] :=
      List.filter_eq_nil_iff.mpr (fun a ha => by simp [hall a ha])
    simp [auto_detect_port, hnil]

/-- Witness for C6: in a list of one generic port followed by a CH340 port,
the CH340 port is selected. -/
theorem port_resolution_policy_witness :
    auto_detect_port
      [⟨"COM1", some "Generic", none⟩, ⟨"COM3", some "CH340", none⟩] =
      Except.ok "COM3" := by
  have h := port_resolution_policy.1
    [⟨"COM1", some "Generic", none⟩] ⟨"COM3", some "CH340", none⟩ []
    (by decide) (by decide)
  simpa using h

end RecycleSorter
